import Mathlib

/-!
Verification of the local discovery cache with staleness detection
(`src/py/gt/vscode/wrapper/_wrapper.py`).

The embedding models:
* the Python `dict[str, float]` of `_scan_mtimes` as an association list
  built with Python's insert semantics (update-in-place, append when new)
  and compared with Python's extensional `dict` equality;
* mtimes as `Nat` (opaque timestamp values compared bit-exactly);
* the filesystem visible to one call as pure functions (`isDir`, `mtime`,
  `children`) plus failure flags (`statFail` for an `OSError` raised by
  `Path.stat`, `iterFail` for an `OSError` raised when `Path.iterdir`
  starts), since the code assumes the filesystem unchanged during a call;
* the Metadata File as either absent, corrupt (`json.loads` raises),
  holding valid JSON that is not an object (on which `meta.get`, sitting
  outside the `try` in `_is_stale`, raises an uncaught
  `AttributeError`), or a parsed record with optional `bndl_roots` /
  `depth2_mtimes` members (a missing member behaves like Python
  `dict.get`);
* `_is_stale` as returning `Except`: `Except.ok` the boolean verdict,
  `Except.error` the uncaught `AttributeError`;
* `write_local_bundles` as a function from an environment (roots string,
  filesystem, current cache pair, the injected scan's result, and
  success flags for the three write-side operations) to the number of
  scan invocations paired with `Except`: `Except.error` models a
  propagated Python exception, `Except.ok` carries the resulting cache
  pair and the returned path.
The path-list separator is modelled as the POSIX `:` branch of
`';' if os.name == 'nt' else ':'`.
-/

/-- The fingerprint dictionary `dict[str, float]` of `_scan_mtimes`. -/
abbrev Dict := List (String × Nat)

/-- Python `dict` lookup: the value at the (unique) occurrence of a key. -/
def dlookup : Dict → String → Option Nat
  | [], _ => none
  | p :: ps, k => if p.1 == k then some p.2 else dlookup ps k

/-- Python `mtimes[k] = v`: update the existing entry in place, else append. -/
def dinsert : Dict → String → Nat → Dict
  | [], k, v => [(k, v)]
  | p :: ps, k, v => if p.1 == k then (k, v) :: ps else p :: dinsert ps k v

/-- Python `dict` equality (`==` / `!=`): same key set, same value per key. -/
def dictBEq (a b : Dict) : Bool :=
  a.all (fun p => dlookup b p.1 == some p.2) &&
    b.all (fun p => dlookup a p.1 == some p.2)

/-- The key list of a fingerprint dictionary. -/
def dkeys (d : Dict) : List String := d.map Prod.fst

/-- The filesystem state seen by one call, with OS-failure flags:
`statFail p` means `Path(p).stat()` raises `OSError`, `iterFail p` means
`Path(p).iterdir()` raises `OSError` (`Path.is_dir` itself never raises). -/
structure FS where
  isDir : String → Bool
  mtime : String → Nat
  children : String → List String
  statFail : String → Bool
  iterFail : String → Bool

/-- The `for child in root.iterdir()` loop body of `_scan_mtimes`: record
each child directory's mtime; a failing `child.stat()` raises `OSError`,
caught by the enclosing `except`, keeping the entries recorded so far. -/
def scanChildren (fs : FS) (d : Dict) : List String → Dict
  | [] => d
  | c :: cs =>
    if fs.isDir c then
      if fs.statFail c then d
      else scanChildren fs (dinsert d c (fs.mtime c)) cs
    else scanChildren fs d cs

/-- One iteration of the root loop of `_scan_mtimes`: skip non-directories;
record the root's mtime (a failing `root.stat()` is caught, adding
nothing); then enumerate children (a failing `iterdir` is caught, keeping
the root's entry). -/
def scanRoot (fs : FS) (d : Dict) (r : String) : Dict :=
  if fs.isDir r then
    if fs.statFail r then d
    else
      let d1 := dinsert d r (fs.mtime r)
      if fs.iterFail r then d1
      else scanChildren fs d1 (fs.children r)
  else d

/-- `_scan_mtimes(roots)`: last-modified times for each root directory and
its immediate child directories. -/
def scan_mtimes (fs : FS) (roots : List String) : Dict :=
  roots.foldl (scanRoot fs) []

/-- Python `str.split(':')`: split on every colon, keeping empty
segments (`''.split(':') == ['']`). -/
def splitOnColon : List Char → List (List Char)
  | [] => [[]]
  | c :: cs =>
    match splitOnColon cs with
    | r :: rs => if c = ':' then [] :: r :: rs else (c :: r) :: rs
    | [] => []

/-- Python `str.strip()`: drop leading and trailing whitespace. -/
def stripChars (l : List Char) : List Char :=
  ((l.dropWhile Char.isWhitespace).reverse.dropWhile Char.isWhitespace).reverse

/-- `[r.strip() for r in roots_str.split(sep) if r.strip()]` with the
POSIX separator `:`. -/
def splitRoots (roots_str : String) : List String :=
  ((splitOnColon roots_str.toList).map
      (fun seg => String.mk (stripChars seg))).filter (fun r => r != "")

/-- The Metadata File parsed by `json.loads`: optional members, as read by
`meta.get('bndl_roots')` and `meta.get('depth2_mtimes', {})`. -/
structure Meta where
  bndl_roots : Option String
  depth2_mtimes : Option Dict
deriving DecidableEq, Repr

/-- State of the Metadata File on disk: missing, present but unparseable
(`json.loads` raises), holding valid JSON that is not an object (a list,
string, number, boolean or null — `json.loads` succeeds but the value
has no `get` method), or parsed into an object. -/
inductive MetaState where
  | absent
  | corrupt
  | nonObject
  | parsed (m : Meta)
deriving DecidableEq, Repr

/-- The cache pair on disk: the Result File's `bundles` member (`none` =
file missing) and the Metadata File. -/
structure CacheState where
  result : Option (List String)
  meta : MetaState
deriving DecidableEq, Repr

/-- `LOCAL_BUNDLES_PATH`, the fixed path of the Result File. -/
def LOCAL_BUNDLES_PATH : String := "gt/envoy/local_bundles.json"

/-- An uncaught Python exception propagating out of the cache manager:
the `AttributeError` raised by `meta.get` inside `_is_stale` when the
parsed metadata is not a dict (the `meta.get` calls sit outside the
`try` block), or an `OSError` from `_CONFIG_DIR.mkdir`,
`LOCAL_BUNDLES_PATH.write_text` or `_META_PATH.write_text`. -/
inductive PyErr where
  | attrError
  | mkdirFail
  | resultWriteFail
  | metaWriteFail
deriving DecidableEq, Repr

/-- `_is_stale(roots_str)`: `Except.ok true` when `local_bundles.json`
should be regenerated, `Except.ok false` when the cache is fresh.  Only
`json.loads` is inside the `try`, so on a Metadata File holding valid
non-object JSON the subsequent `meta.get('bndl_roots')` raises an
uncaught `AttributeError`, modelled as `Except.error PyErr.attrError`. -/
def is_stale (fs : FS) (cache : CacheState) (roots_str : String) :
    Except PyErr Bool :=
  match cache.result, cache.meta with
  | none, _ => Except.ok true
  | some _, MetaState.absent => Except.ok true
  | some _, MetaState.corrupt => Except.ok true
  | some _, MetaState.nonObject => Except.error PyErr.attrError
  | some _, MetaState.parsed m =>
    Except.ok
      (if m.bndl_roots != some roots_str then true
       else if !(dictBEq (scan_mtimes fs (splitRoots roots_str))
                   (m.depth2_mtimes.getD [])) then true
       else false)

/-- What a successful `write_local_bundles` leaves behind: the cache pair
on disk and the returned path (a failed call leaves `Except.error`). -/
structure Outcome where
  cache : CacheState
  path : String
deriving DecidableEq, Repr

/-- The environment of one `write_local_bundles` call: the
`ENVOY_BNDL_ROOTS` string (`''` when unset), the filesystem, the cache
pair on disk, the bundle paths the injected scan would return, and
success flags for the three write-side operations. -/
structure Env where
  roots_str : String
  fs : FS
  cache : CacheState
  scanResult : List String
  mkdirOk : Bool
  writeResultOk : Bool
  writeMetaOk : Bool

/-- The Metadata File content written on regeneration:
`{'bndl_roots': roots_str, 'depth2_mtimes': _scan_mtimes(roots)}`. -/
def regenMeta (env : Env) : Meta :=
  { bndl_roots := some env.roots_str
  , depth2_mtimes := some (scan_mtimes env.fs (splitRoots env.roots_str)) }

/-- The cache pair after a successful regeneration. -/
def regenCache (env : Env) : CacheState :=
  { result := some env.scanResult
  , meta := MetaState.parsed (regenMeta env) }

/-- The regeneration branch of `write_local_bundles`: the scan has run
(one invocation), then `mkdir`, then the Result File write, then the
Metadata File write, propagating the first failure. -/
def regenerate (env : Env) : Nat × Except PyErr Outcome :=
  if env.mkdirOk then
    if env.writeResultOk then
      if env.writeMetaOk then
        (1, Except.ok ⟨regenCache env, LOCAL_BUNDLES_PATH⟩)
      else (1, Except.error PyErr.metaWriteFail)
    else (1, Except.error PyErr.resultWriteFail)
  else (1, Except.error PyErr.mkdirFail)

/-- `write_local_bundles(force=force)`: number of invocations of the
injected scan (`envoy.discover_bundles_auto`) paired with the outcome.
`if not force and not _is_stale(roots_str)` short-circuits: with
`force=True` the staleness check never runs; otherwise an exception
raised by `_is_stale` propagates (no scan), a fresh verdict returns the
existing cache untouched with no scan, and a stale verdict regenerates. -/
def write_local_bundles (env : Env) (force : Bool) :
    Nat × Except PyErr Outcome :=
  if force then regenerate env
  else
    match is_stale env.fs env.cache env.roots_str with
    | Except.error e => (0, Except.error e)
    | Except.ok true => regenerate env
    | Except.ok false => (0, Except.ok ⟨env.cache, LOCAL_BUNDLES_PATH⟩)

-- Concrete filesystems used by witnesses and counterexamples.

/-- A small failure-free filesystem: roots `a` and `b`, `a` having child
directories `a/c` and a child file `a/f`. -/
def fsEx : FS where
  isDir := fun p => p == "a" || p == "a/c" || p == "b"
  mtime := fun p => p.length
  children := fun p => if p == "a" then ["a/c", "a/f"] else []
  statFail := fun _ => false
  iterFail := fun _ => false

/-- A filesystem where everything is missing. -/
def fsNone : FS where
  isDir := fun _ => false
  mtime := fun _ => 0
  children := fun _ => []
  statFail := fun _ => false
  iterFail := fun _ => false

/-- A filesystem where root `a` exists but `iterdir` on it raises. -/
def fsIterFail : FS where
  isDir := fun p => p == "a"
  mtime := fun _ => 7
  children := fun _ => []
  statFail := fun _ => false
  iterFail := fun p => p == "a"

/-- A filesystem where directories `a` and `b` exist but `stat` on `a`
raises. -/
def fsStatFail : FS where
  isDir := fun p => p == "a" || p == "b"
  mtime := fun _ => 3
  children := fun _ => []
  statFail := fun p => p == "a"
  iterFail := fun _ => false

/-- Keys the child loop records for one root's child list, including the
early abort when a child's `stat` fails. -/
def childKeys (fs : FS) : List String → List String
  | [] => []
  | c :: cs =>
    if fs.isDir c then
      if fs.statFail c then [] else c :: childKeys fs cs
    else childKeys fs cs

/-- Keys one root contributes to the fingerprint. -/
def keysOf (fs : FS) (r : String) : List String :=
  if fs.isDir r then
    if fs.statFail r then []
    else r :: (if fs.iterFail r then [] else childKeys fs (fs.children r))
  else []

/-- Spec §4.1 fingerprint equality: two fingerprints are equal iff they
have identical key sets and identical values per key. -/
def DictEquiv (a b : Dict) : Prop := ∀ k, dlookup a k = dlookup b k

/-- The spec's staleness disjunction, written from the spec's words:
Result File missing, or Metadata File missing, or Metadata File
unparseable, or stored `bndl_roots` not byte-identical to the supplied
roots string, or the fingerprint recomputed over the separator-split,
trimmed, non-empty segments differing from the stored `depth2_mtimes`. -/
def staleSpec (fs : FS) (c : CacheState) (roots_str : String) : Prop :=
  c.result = none ∨ c.meta = MetaState.absent ∨ c.meta = MetaState.corrupt ∨
    ∃ m, c.meta = MetaState.parsed m ∧
      (m.bndl_roots ≠ some roots_str ∨
        ¬ DictEquiv (scan_mtimes fs (splitRoots roots_str))
          (m.depth2_mtimes.getD []))

/-- A parsed Metadata File stores its `depth2_mtimes` member with unique
keys: `json.loads` cannot bind one key of a JSON object twice. -/
def metaKeysUnique (c : CacheState) : Prop :=
  ∀ m, c.meta = MetaState.parsed m → (dkeys (m.depth2_mtimes.getD [])).Nodup

/-- An environment whose cache pair is fresh for roots `a:b` on `fsEx`. -/
def envFresh : Env where
  roots_str := "a:b"
  fs := fsEx
  cache := ⟨some ["x"], MetaState.parsed
    ⟨some "a:b", some [("a", 1), ("a/c", 3), ("b", 1)]⟩⟩
  scanResult := ["x", "y"]
  mkdirOk := true
  writeResultOk := true
  writeMetaOk := true

/-- An environment with no cache pair on disk (first use). -/
def envStale : Env where
  roots_str := ""
  fs := fsNone
  cache := ⟨none, MetaState.absent⟩
  scanResult := ["x", "y"]
  mkdirOk := true
  writeResultOk := true
  writeMetaOk := true

/-- An environment whose Metadata File holds valid non-object JSON
(such as `[]`) while the Result File is present and the write side is
healthy. -/
def envNonObject : Env :=
  { envFresh with cache := ⟨some ["x"], MetaState.nonObject⟩ }

-- ---------------------------------------------------------------------------
-- Dictionary lemmas
-- ---------------------------------------------------------------------------

-- Sanity checks on concrete inputs.

example : scan_mtimes fsEx ["a", "b"] = [("a", 1), ("a/c", 3), ("b", 1)] := by
  decide

example : scan_mtimes fsNone ["a", "b"] = [] := by decide

example : scan_mtimes fsIterFail ["a"] = [("a", 7)] := by decide

example : splitRoots " a : :b:" = ["a", "b"] := by decide

example :
    is_stale fsEx ⟨some ["x"], MetaState.parsed ⟨some "a:b",
      some [("a", 1), ("a/c", 3), ("b", 1)]⟩⟩ "a:b" = Except.ok false := rfl

example :
    is_stale fsEx ⟨some ["x"], MetaState.nonObject⟩ "a:b"
      = Except.error PyErr.attrError := rfl

theorem dlookup_dinsert (d : Dict) (k : String) (v : Nat) (q : String) :
    dlookup (dinsert d k v) q = if q = k then some v else dlookup d q := by
  induction d with
  | nil =>
    by_cases hq : q = k
    · simp [dinsert, dlookup, hq]
    · simp [dinsert, dlookup, hq, Ne.symm hq]
  | cons p ps ih =>
    by_cases hp : p.1 = k <;> by_cases hq : q = k
    · simp [dinsert, dlookup, hp, hq]
    · simp [dinsert, dlookup, hp, hq, Ne.symm hq]
    · subst hq
      simp [dinsert, dlookup, hp, ih]
    · by_cases hpq : p.1 = q
      · simp [dinsert, dlookup, hp, hq, hpq]
      · simp [dinsert, dlookup, hp, hq, hpq, ih]

theorem dlookup_some_mem {d : Dict} {k : String} {v : Nat}
    (h : dlookup d k = some v) : (k, v) ∈ d := by
  induction d with
  | nil => simp [dlookup] at h
  | cons p ps ih =>
    by_cases hp : p.1 = k
    · simp [dlookup, hp, beq_iff_eq] at h
      subst hp
      subst h
      exact List.mem_cons_self _ _
    · simp [dlookup, hp, beq_iff_eq] at h
      exact List.mem_cons_of_mem _ (ih h)

theorem mem_dkeys_of_mem {d : Dict} {k : String} {v : Nat}
    (h : (k, v) ∈ d) : k ∈ dkeys d :=
  List.mem_map_of_mem Prod.fst h

theorem mem_dlookup {d : Dict} {k : String} {v : Nat}
    (hnd : (dkeys d).Nodup) (h : (k, v) ∈ d) : dlookup d k = some v := by
  induction d with
  | nil => simp at h
  | cons p ps ih =>
    simp only [dkeys, List.map_cons, List.nodup_cons] at hnd
    rcases List.mem_cons.mp h with h | h
    · subst h
      simp [dlookup]
    · have hk : k ∈ dkeys ps := mem_dkeys_of_mem h
      have hp : p.1 ≠ k := by
        intro he
        exact hnd.1 (he ▸ hk)
      simp [dlookup, hp, ih hnd.2 h]

/-- Python `dict` equality agrees with extensional lookup equality on
dictionaries with unique keys. -/
theorem dictBEq_iff {a b : Dict}
    (ha : (dkeys a).Nodup) (hb : (dkeys b).Nodup) :
    dictBEq a b = true ↔ ∀ k, dlookup a k = dlookup b k := by
  constructor
  · intro h k
    simp only [dictBEq, Bool.and_eq_true] at h
    rcases h with ⟨h1, h2⟩
    cases hx : dlookup a k with
    | some v =>
      have hm : (k, v) ∈ a := dlookup_some_mem hx
      have := List.all_eq_true.mp h1 _ hm
      simp only [beq_iff_eq] at this
      exact this.symm
    | none =>
      cases hy : dlookup b k with
      | some w =>
        have hm : (k, w) ∈ b := dlookup_some_mem hy
        have := List.all_eq_true.mp h2 _ hm
        simp only [beq_iff_eq] at this
        rw [this] at hx
        exact absurd hx (by simp)
      | none => rfl
  · intro h
    simp only [dictBEq, Bool.and_eq_true]
    constructor
    · apply List.all_eq_true.mpr
      intro p hp
      have : dlookup a p.1 = some p.2 := mem_dlookup ha hp
      simp [← h p.1, this]
    · apply List.all_eq_true.mpr
      intro p hp
      have : dlookup b p.1 = some p.2 := mem_dlookup hb hp
      simp [h p.1, this]

theorem dkeys_dinsert_mem {d : Dict} {k a : String} {v : Nat}
    (h : a ∈ dkeys (dinsert d k v)) : a ∈ dkeys d ∨ a = k := by
  induction d with
  | nil => simp [dinsert, dkeys] at h; exact Or.inr h
  | cons p ps ih =>
    by_cases hp : p.1 = k
    · simp [dinsert, dkeys, hp, beq_iff_eq] at h
      rcases h with h | h
      · exact Or.inr h
      · exact Or.inl (by simp [dkeys]; exact Or.inr h)
    · simp [dinsert, dkeys, hp, beq_iff_eq] at h
      rcases h with h | h
      · exact Or.inl (by simp [dkeys, h])
      · rcases ih (by simpa [dkeys] using h) with h | h
        · exact Or.inl (by simp [dkeys] at h ⊢; exact Or.inr h)
        · exact Or.inr h

theorem dkeys_nodup_dinsert {d : Dict} {k : String} {v : Nat}
    (h : (dkeys d).Nodup) : (dkeys (dinsert d k v)).Nodup := by
  induction d with
  | nil => simp [dinsert, dkeys]
  | cons p ps ih =>
    simp only [dkeys, List.map_cons, List.nodup_cons] at h
    by_cases hp : p.1 = k
    · simp only [dinsert, hp, beq_self_eq_true, if_true]
      simp only [dkeys, List.map_cons, List.nodup_cons]
      exact ⟨hp ▸ h.1, h.2⟩
    · simp only [dinsert, beq_iff_eq, hp, if_false]
      simp only [dkeys, List.map_cons, List.nodup_cons]
      refine ⟨?_, ih h.2⟩
      intro hmem
      rcases dkeys_dinsert_mem hmem with hm | hm
      · exact h.1 hm
      · exact hp hm

-- ---------------------------------------------------------------------------
-- Characterisation of the scan
-- ---------------------------------------------------------------------------

theorem dlookup_scanChildren (fs : FS) (cs : List String) (d : Dict)
    (p : String) :
    dlookup (scanChildren fs d cs) p =
      if p ∈ childKeys fs cs then some (fs.mtime p) else dlookup d p := by
  induction cs generalizing d with
  | nil => simp [scanChildren, childKeys]
  | cons c cs ih =>
    by_cases hdir : fs.isDir c
    · by_cases hsf : fs.statFail c
      · simp [scanChildren, childKeys, hdir, hsf]
      · by_cases hpc : p = c
        · subst hpc
          simp [scanChildren, childKeys, hdir, hsf, ih, dlookup_dinsert]
        · simp [scanChildren, childKeys, hdir, hsf, hpc, ih, dlookup_dinsert]
    · simp [scanChildren, childKeys, hdir, ih]

theorem dlookup_scanRoot (fs : FS) (d : Dict) (r : String) (p : String) :
    dlookup (scanRoot fs d r) p =
      if p ∈ keysOf fs r then some (fs.mtime p) else dlookup d p := by
  by_cases hdir : fs.isDir r
  · by_cases hsf : fs.statFail r
    · simp [scanRoot, keysOf, hdir, hsf]
    · by_cases hit : fs.iterFail r
      · by_cases hpr : p = r
        · subst hpr
          simp [scanRoot, keysOf, hdir, hsf, hit, dlookup_dinsert]
        · simp [scanRoot, keysOf, hdir, hsf, hit, hpr, dlookup_dinsert]
      · by_cases hpr : p = r
        · subst hpr
          simp [scanRoot, keysOf, hdir, hsf, hit, dlookup_scanChildren,
            dlookup_dinsert]
        · simp [scanRoot, keysOf, hdir, hsf, hit, hpr, dlookup_scanChildren,
            dlookup_dinsert]
  · simp [scanRoot, keysOf, hdir]

theorem dlookup_foldl_scanRoot (fs : FS) (l : List String) (d : Dict)
    (p : String) :
    dlookup (l.foldl (scanRoot fs) d) p =
      if ∃ r ∈ l, p ∈ keysOf fs r then some (fs.mtime p) else dlookup d p := by
  induction l generalizing d with
  | nil => simp
  | cons r l ih =>
    rw [List.foldl_cons, ih]
    by_cases hl : ∃ x ∈ l, p ∈ keysOf fs x
    · simp [hl]
    · by_cases hr : p ∈ keysOf fs r
      · simp [hl, hr, dlookup_scanRoot]
      · simp [hl, hr, dlookup_scanRoot]

/-- Lookup characterisation of `_scan_mtimes`: a path is mapped iff some
root of the list contributes it, and its value is always the path's own
mtime. -/
theorem dlookup_scan_mtimes (fs : FS) (l : List String) (p : String) :
    dlookup (scan_mtimes fs l) p =
      if ∃ r ∈ l, p ∈ keysOf fs r then some (fs.mtime p) else none := by
  rw [scan_mtimes, dlookup_foldl_scanRoot]
  rfl

theorem dkeys_nodup_scanChildren (fs : FS) (cs : List String) (d : Dict)
    (h : (dkeys d).Nodup) : (dkeys (scanChildren fs d cs)).Nodup := by
  induction cs generalizing d with
  | nil => exact h
  | cons c cs ih =>
    by_cases hdir : fs.isDir c
    · by_cases hsf : fs.statFail c
      · simpa [scanChildren, hdir, hsf] using h
      · simpa [scanChildren, hdir, hsf] using ih _ (dkeys_nodup_dinsert h)
    · simpa [scanChildren, hdir] using ih _ h

theorem dkeys_nodup_scanRoot (fs : FS) (d : Dict) (r : String)
    (h : (dkeys d).Nodup) : (dkeys (scanRoot fs d r)).Nodup := by
  by_cases hdir : fs.isDir r
  · by_cases hsf : fs.statFail r
    · simpa [scanRoot, hdir, hsf] using h
    · by_cases hit : fs.iterFail r
      · simpa [scanRoot, hdir, hsf, hit] using dkeys_nodup_dinsert h
      · simpa [scanRoot, hdir, hsf, hit] using
          dkeys_nodup_scanChildren fs (fs.children r) _ (dkeys_nodup_dinsert h)
  · simpa [scanRoot, hdir] using h

/-- The fingerprint built by `_scan_mtimes` has unique keys (it is a
Python `dict`). -/
theorem dkeys_nodup_scan_mtimes (fs : FS) (l : List String) :
    (dkeys (scan_mtimes fs l)).Nodup := by
  rw [scan_mtimes]
  have : ∀ d : Dict, (dkeys d).Nodup → (dkeys (l.foldl (scanRoot fs) d)).Nodup := by
    induction l with
    | nil => intro d h; exact h
    | cons r l ih =>
      intro d h
      exact ih _ (dkeys_nodup_scanRoot fs d r h)
  exact this [] (by simp [dkeys])

-- ---------------------------------------------------------------------------
-- Spec-side staleness predicate
-- ---------------------------------------------------------------------------

/-- On every cache-file state whose Metadata File, when present and
parseable, parses as an object, `_is_stale` returns the spec's
disjunction (Result File missing ∨ Metadata File missing ∨ unparseable ∨
stored `bndl_roots` differs from the supplied roots string ∨ recomputed
fingerprint differs from the stored `depth2_mtimes`), evaluating the
checks in that order. -/
theorem is_stale_disjunction_wellformed (fs : FS) (c : CacheState)
    (r : String) (hwf : metaKeysUnique c)
    (hobj : c.meta ≠ MetaState.nonObject) :
    is_stale fs c r = Except.ok true ↔ staleSpec fs c r := by
  rcases hres : c.result with _ | bs
  · simp [is_stale, staleSpec, hres]
  · rcases hmeta : c.meta with _ | _ | _ | m
    · simp [is_stale, staleSpec, hres, hmeta]
    · simp [is_stale, staleSpec, hres, hmeta]
    · exact absurd hmeta hobj
    · have hnd : (dkeys (m.depth2_mtimes.getD [])).Nodup := hwf m hmeta
      have hiff := dictBEq_iff (dkeys_nodup_scan_mtimes fs (splitRoots r)) hnd
      by_cases hb : m.bndl_roots = some r
      · simp [is_stale, staleSpec, hres, hmeta, hb, DictEquiv]
        rw [Bool.eq_false_iff, ne_eq, hiff]
        exact not_forall
      · simp [is_stale, staleSpec, hres, hmeta, hb]

/-- C1 (code bug): the claim — and the spec's "corrupt file ⇒ treat as
missing, do not fail the operation" — demand that every cache-file state
be judged stale or fresh, but on a Metadata File holding valid
non-object JSON (such as `[]`) `_is_stale` judges nothing: `json.loads`
succeeds, and `meta.get('bndl_roots')`, which sits outside the `try`,
raises an uncaught `AttributeError`. -/
theorem c1_crash_on_non_object_metadata :
    is_stale fsEx ⟨some ["x"], MetaState.nonObject⟩ "a"
        = Except.error PyErr.attrError ∧
      ∀ b, is_stale fsEx ⟨some ["x"], MetaState.nonObject⟩ "a"
        ≠ Except.ok b :=
  ⟨rfl, fun _ h => Except.noConfusion h⟩

/-- C9: when the Metadata File parses but lacks the `depth2_mtimes` key,
`_is_stale` compares the freshly computed fingerprint against the empty
mapping (the `meta.get('depth2_mtimes', {})` default); consequently, when
the stored `bndl_roots` matches and the current fingerprint is empty, the
incomplete metadata file is classified as fresh. -/
theorem c9_missing_depth2_mtimes (fs : FS) (r : String) (bs : List String) :
    is_stale fs ⟨some bs, MetaState.parsed ⟨some r, none⟩⟩ r
        = Except.ok (!(dictBEq (scan_mtimes fs (splitRoots r)) [])) ∧
      (scan_mtimes fs (splitRoots r) = [] →
        is_stale fs ⟨some bs, MetaState.parsed ⟨some r, none⟩⟩ r
          = Except.ok false) := by
  constructor
  · simp [is_stale]
  · intro hscan
    simp [is_stale, hscan, dictBEq]

/-- Witness for C9 at a concrete input: with both configured roots
non-existent, the fingerprint is empty and the incomplete metadata file
is judged fresh. -/
theorem c9_missing_depth2_mtimes_witness :
    is_stale fsNone ⟨some ["x"], MetaState.parsed ⟨some "a:b", none⟩⟩ "a:b"
      = Except.ok false :=
  (c9_missing_depth2_mtimes fsNone "a:b" ["x"]).2 (by decide)

/-- C4 counterexample: the claim says a root hit by an OS-level failure
contributes no entries, but when `iterdir` fails after the root's own
`stat` succeeded, the root's own mtime entry remains in the fingerprint:
on `fsIterFail` the root `a` suffers an enumeration failure yet the
fingerprint is `{'a': 7}`, not empty. -/
theorem c4_counterexample :
    fsIterFail.iterFail "a" = true ∧ fsIterFail.isDir "a" = true ∧
      scan_mtimes fsIterFail ["a"] = [("a", 7)] ∧
      scan_mtimes fsIterFail ["a"] ≠ [] := by decide

/-- C4 amended: `_scan_mtimes` never raises (it is a total function of the
filesystem state, every OS failure being caught), and a root whose own
`stat` fails is skipped silently, contributing no entries; only a failure
occurring after the root's `stat` succeeded (while enumerating or
statting children) leaves the entries already recorded for that root. -/
theorem c4_statfail_root_contributes_nothing (fs : FS)
    (pre post : List String) (r : String) (h : fs.statFail r = true) :
    scan_mtimes fs (pre ++ r :: post) = scan_mtimes fs (pre ++ post) := by
  rw [scan_mtimes, scan_mtimes, List.foldl_append, List.foldl_append,
    List.foldl_cons]
  congr 1
  rw [scanRoot]
  by_cases hd : fs.isDir r <;> simp [hd, h]

/-- Witness for C4's amended statement at a concrete input: a root whose
`stat` raises contributes nothing. -/
theorem c4_statfail_root_contributes_nothing_witness :
    scan_mtimes fsStatFail ["b", "a"] = scan_mtimes fsStatFail ["b"] :=
  c4_statfail_root_contributes_nothing fsStatFail ["b"] [] "a" (by decide)

theorem childKeys_no_statfail (fs : FS) (h1 : ∀ q, fs.statFail q = false)
    (cs : List String) : childKeys fs cs = cs.filter fs.isDir := by
  induction cs with
  | nil => rfl
  | cons c cs ih =>
    by_cases hd : fs.isDir c <;> simp [childKeys, h1, hd, ih, List.filter_cons]

theorem mem_keysOf_no_fail (fs : FS) (h1 : ∀ q, fs.statFail q = false)
    (h2 : ∀ q, fs.iterFail q = false) (r p : String) :
    p ∈ keysOf fs r ↔
      fs.isDir r = true ∧
        (p = r ∨ (p ∈ fs.children r ∧ fs.isDir p = true)) := by
  by_cases hd : fs.isDir r <;>
    simp [keysOf, hd, h1, h2, childKeys_no_statfail fs h1, List.mem_filter]

/-- C3: in the absence of OS-level failures, the fingerprint computed by
`_scan_mtimes` maps exactly (a) each root of the list that exists as a
directory to its own mtime and (b) each immediate child of such a root
that is itself a directory to its mtime; non-existent roots and
non-directory entries contribute nothing. -/
theorem c3_fingerprint_contents (fs : FS) (roots : List String)
    (p : String) (v : Nat) (h1 : ∀ q, fs.statFail q = false)
    (h2 : ∀ q, fs.iterFail q = false) :
    dlookup (scan_mtimes fs roots) p = some v ↔
      fs.isDir p = true ∧ v = fs.mtime p ∧
        (p ∈ roots ∨
          ∃ r, r ∈ roots ∧ fs.isDir r = true ∧ p ∈ fs.children r) := by
  rw [dlookup_scan_mtimes]
  have hmem : (∃ r ∈ roots, p ∈ keysOf fs r) ↔
      (fs.isDir p = true ∧
        (p ∈ roots ∨
          ∃ r, r ∈ roots ∧ fs.isDir r = true ∧ p ∈ fs.children r)) := by
    constructor
    · rintro ⟨r, hr, hkr⟩
      rw [mem_keysOf_no_fail fs h1 h2] at hkr
      rcases hkr with ⟨hdr, hpr | ⟨hpc, hdp⟩⟩
      · subst hpr
        exact ⟨hdr, Or.inl hr⟩
      · exact ⟨hdp, Or.inr ⟨r, hr, hdr, hpc⟩⟩
    · rintro ⟨hdp, hr | ⟨r, hr, hdr, hpc⟩⟩
      · exact ⟨p, hr, (mem_keysOf_no_fail fs h1 h2 p p).mpr ⟨hdp, Or.inl rfl⟩⟩
      · exact ⟨r, hr, (mem_keysOf_no_fail fs h1 h2 r p).mpr
          ⟨hdr, Or.inr ⟨hpc, hdp⟩⟩⟩
  by_cases hex : ∃ r ∈ roots, p ∈ keysOf fs r
  · rw [if_pos hex]
    rw [hmem] at hex
    constructor
    · intro h
      exact ⟨hex.1, (Option.some.inj h).symm, hex.2⟩
    · rintro ⟨_, hv, _⟩
      rw [hv]
  · rw [if_neg hex]
    rw [hmem] at hex
    constructor
    · intro h
      exact Option.noConfusion h
    · rintro ⟨hdp, _, hcase⟩
      exact absurd ⟨hdp, hcase⟩ hex

/-- Witness for C3 at a concrete input: on `fsEx`, scanning roots
`a` and `b` records the child directory `a/c` with its mtime. -/
theorem c3_fingerprint_contents_witness :
    dlookup (scan_mtimes fsEx ["a", "b"]) "a/c" = some 3 ↔
      fsEx.isDir "a/c" = true ∧ 3 = fsEx.mtime "a/c" ∧
        ("a/c" ∈ ["a", "b"] ∨
          ∃ r, r ∈ ["a", "b"] ∧ fsEx.isDir r = true ∧
            "a/c" ∈ fsEx.children r) :=
  c3_fingerprint_contents fsEx ["a", "b"] "a/c" 3
    (fun _ => rfl) (fun _ => rfl)

/-- C10: the fingerprint is keyed by directory path, so with the
filesystem unchanged, `_scan_mtimes` over a root list with duplicates
equals (as a Python `dict`) the scan over the de-duplicated list, and
more generally fingerprint equality depends only on which roots occur,
not on multiplicity or the order in which entries were recorded. -/
theorem c10_duplicate_and_order_independence (fs : FS)
    (l l₁ l₂ : List String) (h : ∀ r, r ∈ l₁ ↔ r ∈ l₂) :
    dictBEq (scan_mtimes fs l) (scan_mtimes fs l.dedup) = true ∧
      dictBEq (scan_mtimes fs l₁) (scan_mtimes fs l₂) = true := by
  have key : ∀ a b : List String, (∀ r, r ∈ a ↔ r ∈ b) →
      dictBEq (scan_mtimes fs a) (scan_mtimes fs b) = true := by
    intro a b hab
    rw [dictBEq_iff (dkeys_nodup_scan_mtimes fs a)
      (dkeys_nodup_scan_mtimes fs b)]
    intro k
    simp only [dlookup_scan_mtimes, hab]
  exact ⟨key l l.dedup (fun r => (List.mem_dedup).symm), key l₁ l₂ h⟩

/-- Witness for C10 at a concrete input: scanning `[a, a, b]` and
`[b, a]` yields equal fingerprints. -/
theorem c10_duplicate_and_order_independence_witness :
    dictBEq (scan_mtimes fsEx ["a", "a", "b"])
        (scan_mtimes fsEx (["a", "a", "b"].dedup)) = true ∧
      dictBEq (scan_mtimes fsEx ["a", "a", "b"])
        (scan_mtimes fsEx ["b", "a"]) = true :=
  c10_duplicate_and_order_independence fsEx ["a", "a", "b"]
    ["a", "a", "b"] ["b", "a"] (by intro r; constructor <;>
      (intro hr; simp at hr ⊢; tauto))

-- ---------------------------------------------------------------------------
-- Cache-manager claims
-- ---------------------------------------------------------------------------

theorem dictBEq_self {d : Dict} (h : (dkeys d).Nodup) : dictBEq d d = true :=
  (dictBEq_iff h h).mpr (fun _ => rfl)

/-- A freshly regenerated cache pair is never judged stale against the
same roots string and filesystem. -/
theorem is_stale_regenCache (env : Env) :
    is_stale env.fs (regenCache env) env.roots_str = Except.ok false := by
  simp [is_stale, regenCache, regenMeta,
    dictBEq_self (dkeys_nodup_scan_mtimes env.fs (splitRoots env.roots_str))]

/-- C6: when `force` is false and the staleness check classifies the
cache as fresh, `write_local_bundles` returns the existing Result File
path, leaves the cache pair untouched and does not invoke the scan. -/
theorem c6_fresh_is_pure_cache_hit (env : Env)
    (hfresh : is_stale env.fs env.cache env.roots_str = Except.ok false) :
    write_local_bundles env false =
      (0, Except.ok ⟨env.cache, LOCAL_BUNDLES_PATH⟩) := by
  simp [write_local_bundles, hfresh]

/-- Witness for C6 at a concrete input. -/
theorem c6_fresh_is_pure_cache_hit_witness :
    write_local_bundles envFresh false =
      (0, Except.ok ⟨envFresh.cache, LOCAL_BUNDLES_PATH⟩) :=
  c6_fresh_is_pure_cache_hit envFresh rfl

/-- C2: freshness idempotence. If a `force=false` call succeeds, it
invoked the scan at most once, and a second `force=false` call against
the cache pair it left behind (roots string and filesystem unchanged) is
a pure cache hit: zero scan invocations, cache pair unchanged, and the
same Result File path returned. -/
theorem c2_freshness_idempotence (env : Env) (n : Nat) (out : Outcome)
    (h : write_local_bundles env false = (n, Except.ok out)) :
    n ≤ 1 ∧
      write_local_bundles {env with cache := out.cache} false =
        (0, Except.ok out) := by
  rcases hst : is_stale env.fs env.cache env.roots_str with e | b
  · simp [write_local_bundles, hst] at h
  · cases b
    · have h0 := c6_fresh_is_pure_cache_hit env hst
      rw [h0] at h
      simp only [Prod.mk.injEq, Except.ok.injEq] at h
      obtain ⟨hn, hout⟩ := h
      subst hn
      subst hout
      exact ⟨Nat.zero_le 1, h0⟩
    · simp only [write_local_bundles, Bool.false_eq_true, if_false,
        hst] at h
      by_cases h1 : env.mkdirOk
      · by_cases h2 : env.writeResultOk
        · by_cases h3 : env.writeMetaOk
          · simp only [regenerate, h1, h2, h3, if_true, Prod.mk.injEq,
              Except.ok.injEq] at h
            obtain ⟨hn, hout⟩ := h
            subst hn
            subst hout
            refine ⟨le_refl 1, ?_⟩
            have hrf := is_stale_regenCache env
            simp [write_local_bundles, hrf]
          · simp [regenerate, h1, h2, h3] at h
        · simp [regenerate, h1, h2] at h
      · simp [regenerate, h1] at h

/-- Witness for C2 at a concrete input: a first-use call regenerates
once and the immediately following call is a pure cache hit. -/
theorem c2_freshness_idempotence_witness :
    (1 : Nat) ≤ 1 ∧
      write_local_bundles
          {envStale with
            cache := (Outcome.mk (regenCache envStale) LOCAL_BUNDLES_PATH).cache}
          false =
        (0, Except.ok ⟨regenCache envStale, LOCAL_BUNDLES_PATH⟩) :=
  c2_freshness_idempotence envStale 1
    ⟨regenCache envStale, LOCAL_BUNDLES_PATH⟩ rfl

/-- C5: with `force=true` the scan is invoked exactly once, the staleness
check is bypassed entirely (the outcome does not depend on the cache
state), and when the writes succeed both cache files are overwritten —
even when the existing pair was already fresh. -/
theorem c5_force_regenerates (env : Env) :
    (write_local_bundles env true).1 = 1 ∧
      (∀ c, write_local_bundles {env with cache := c} true =
        write_local_bundles env true) ∧
      (env.mkdirOk = true → env.writeResultOk = true →
        env.writeMetaOk = true →
        (write_local_bundles env true).2 =
          Except.ok ⟨regenCache env, LOCAL_BUNDLES_PATH⟩) := by
  refine ⟨?_, ?_, ?_⟩
  · by_cases h1 : env.mkdirOk <;> by_cases h2 : env.writeResultOk <;>
      by_cases h3 : env.writeMetaOk <;>
      simp [write_local_bundles, regenerate, h1, h2, h3]
  · intro c
    simp [write_local_bundles, regenerate, regenCache, regenMeta]
  · intro h1 h2 h3
    simp [write_local_bundles, regenerate, h1, h2, h3]

/-- Witness for C5 at a concrete input: forcing on an already fresh cache
still regenerates and overwrites both files. -/
theorem c5_force_regenerates_witness :
    (write_local_bundles envFresh true).2 =
      Except.ok ⟨regenCache envFresh, LOCAL_BUNDLES_PATH⟩ :=
  (c5_force_regenerates envFresh).2.2 rfl rfl rfl

/-- C7: round-trip. After a successful regeneration the Result File's
`bundles` member is exactly the ordered sequence of bundle paths the scan
produced — order preserved, nothing added, dropped or de-duplicated. -/
theorem c7_round_trip (env : Env) (force : Bool)
    (hregen : force = true ∨
      is_stale env.fs env.cache env.roots_str = Except.ok true)
    (h1 : env.mkdirOk = true) (h2 : env.writeResultOk = true)
    (h3 : env.writeMetaOk = true) :
    (write_local_bundles env force).2 =
      Except.ok ⟨regenCache env, LOCAL_BUNDLES_PATH⟩ ∧
      (regenCache env).result = some env.scanResult := by
  refine ⟨?_, rfl⟩
  rcases hregen with h | h
  · subst h
    simp [write_local_bundles, regenerate, h1, h2, h3]
  · cases force
    · simp [write_local_bundles, regenerate, h, h1, h2, h3]
    · simp [write_local_bundles, regenerate, h1, h2, h3]

/-- Witness for C7 at a concrete input: a scan returning `["x","y"]`
reads back from the Result File as exactly `["x","y"]`. -/
theorem c7_round_trip_witness :
    (write_local_bundles envStale false).2 =
      Except.ok ⟨regenCache envStale, LOCAL_BUNDLES_PATH⟩ ∧
      (regenCache envStale).result = some ["x", "y"] :=
  c7_round_trip envStale false (Or.inr rfl) rfl rfl rfl

/-- During regeneration, a failure to create the cache directory or to
write either cache file propagates to the caller as an I/O error and no
path is returned (the write-side half of the error taxonomy, which the
code does honour). -/
theorem write_failures_propagate (env : Env) (force : Bool)
    (hregen : force = true ∨
      is_stale env.fs env.cache env.roots_str = Except.ok true)
    (hfail : env.mkdirOk = false ∨ env.writeResultOk = false ∨
      env.writeMetaOk = false) :
    ∃ e, (write_local_bundles env force).2 = Except.error e := by
  have hr : (write_local_bundles env force).2 = (regenerate env).2 := by
    rcases hregen with h | h
    · subst h
      simp [write_local_bundles]
    · cases force
      · simp [write_local_bundles, h]
      · simp [write_local_bundles]
  rw [hr]
  by_cases h1 : env.mkdirOk
  · by_cases h2 : env.writeResultOk
    · by_cases h3 : env.writeMetaOk
      · rcases hfail with h | h | h <;> simp [h1, h2, h3] at h
      · exact ⟨PyErr.metaWriteFail, by simp [regenerate, h1, h2, h3]⟩
    · exact ⟨PyErr.resultWriteFail, by simp [regenerate, h1, h2]⟩
  · exact ⟨PyErr.mkdirFail, by simp [regenerate, h1]⟩

/-- C8 (code bug): the claim — and the spec's error taxonomy — say that
read-side failures (missing or corrupt cache pair) are never surfaced as
errors, but with a perfectly healthy write side a Metadata File holding
valid non-object JSON (such as `[]`) makes `write_local_bundles`
propagate the uncaught `AttributeError` raised inside `_is_stale`
(`meta.get` sits outside the `try`) instead of returning a path. -/
theorem c8_read_side_error_surfaced :
    envNonObject.mkdirOk = true ∧ envNonObject.writeResultOk = true ∧
      envNonObject.writeMetaOk = true ∧
      write_local_bundles envNonObject false
        = (0, Except.error PyErr.attrError) :=
  ⟨rfl, rfl, rfl, rfl⟩
